import Mathlib

/-!
A shallow embedding of the Microsoft 365 Defender KQL backend
(`sigma/backends/microsoft365defender/microsoft365defender.py`).

The backend subclasses the generic `TextQueryBackend` of the pySigma
framework and overrides three methods:
`convert_condition_field_eq_val_num`, `convert_condition_as_in_expression`
and `finalize_query_default`; those three are embedded directly from the
source.  The framework methods they call (`escape_and_quote_field`,
`convert_value_str`, `convert_condition_field_eq_val_str`, the `NOT`
rendering) are not part of this repository's files; they are modelled from
the specification's description of the value model and of the tree
compiler, instantiated with the configuration constants that the source
file sets as class variables.
-/

namespace M365Defender

/-- One component of a sigma string: a plain character, the multi-character
wildcard marker `*`, or the single-character wildcard marker `?`. -/
inductive SPart where
  | plain (c : Char)
  | wildMulti
  | wildSingle
deriving DecidableEq, Repr

/-- Modelled from the spec: `StringLiteral(raw, isWildcarded)` — a string
literal is a sequence of plain characters and wildcard markers (the
framework's `SigmaString` parts representation). -/
structure SigmaString where
  parts : List SPart
deriving DecidableEq, Repr

/-- A sigma value as the embedded methods receive it: a string-with-wildcards
or a number (`SigmaString` / `SigmaNumber` of the framework; models the spec's
`Value` cases the backend's overridden methods can observe). -/
inductive SigmaValue where
  | str (s : SigmaString)
  | num (n : Int)
deriving DecidableEq, Repr

/-- Whether a part is a wildcard marker. -/
def SPart.isSpecial : SPart → Bool
  | .plain _ => false
  | .wildMulti => true
  | .wildSingle => true

/-- Modelled from the spec: a value `isWildcarded` when it contains an
unescaped wildcard marker (the framework's `SigmaString.contains_special`). -/
def SigmaString.contains_special (s : SigmaString) : Bool :=
  s.parts.any SPart.isSpecial

/-- Modelled from the spec: the sigma string constructor for raw values that
contain no escape sequences — `*` becomes the multi-character wildcard marker
and every other character is plain (the `?` single-character marker does not
occur in the inputs considered here). -/
def SigmaString.parse (raw : String) : SigmaString :=
  ⟨raw.data.map (fun c => if c = '*' then SPart.wildMulti else SPart.plain c)⟩

/-- The character a part prints as in the framework's plain stringification
(`str(SigmaString)`): wildcards print as their sigma source characters. -/
def SPart.plainChar : SPart → Char
  | .plain c => c
  | .wildMulti => '*'
  | .wildSingle => '?'

/-- Modelled from the spec: plain stringification of a value, as Python's
`str()` produces it — the raw text of a string literal, the decimal literal
of a number. -/
def SigmaValue.plainStr : SigmaValue → String
  | .str s => ⟨s.parts.map SPart.plainChar⟩
  | .num n => toString n

/-! ### Configuration constants (class variables of the source file) -/

/-- `token_separator = " "`: separator inserted between all boolean operators. -/
def token_separator : String := " "

/-- `or_token = "or"`. -/
def or_token : String := "or"

/-- `and_token = "and"`. -/
def and_token : String := "and"

/-- `not_token = " !~ "`. -/
def not_token : String := " !~ "

/-- `eq_token = " =~ "`: token inserted between field and value. -/
def eq_token : String := " =~ "

/-- `num_eq_token = " == "`: the distinct token the backend defines for
numeric equality. -/
def num_eq_token : String := " == "

/-- `field_quote = "'"`: character used to quote field names. -/
def field_quote : Char := '\''

/-- `field_escape = ""`: string prepended to matches of the field escape
pattern (empty in this backend, so field escaping inserts nothing). -/
def field_escape : String := ""

/-- `str_quote = '"'`: string quoting character. -/
def str_quote : Char := '"'

/-- `or_in_operator = "has_any"`. -/
def or_in_operator : String := "has_any"

/-- `and_in_operator = "has_all"`. -/
def and_in_operator : String := "has_all"

/-- `list_separator = ", "`. -/
def list_separator : String := ", "

/-- `wildcard_match_expression = "match"`: the template used when a wildcard
cannot be matched with the string operators; it contains no placeholders, so
formatting it yields the bare text `match`. -/
def wildcard_match_expression : String := "match"

/-! ### Field rendering -/

/-- Whether a character belongs to the identifier class `\w` of the field
quote pattern `^\w+$` (ASCII view; all fields considered here are ASCII). -/
def isWordChar (c : Char) : Bool :=
  c.isAlphanum || c = '_'

/-- Modelled from the spec: whether the configured identifier pattern
(`field_quote_pattern = ^\w+$`) matches the whole field name. -/
def matches_field_quote_pattern (f : String) : Bool :=
  !f.isEmpty && f.data.all isWordChar

/-- Modelled from the spec: escape any substrings matching the configured
escape pattern (`\s`) by prefixing the escape string, and escape the quote
character itself (`field_escape_quote = True`).  The backend's escape string
is empty, so this pass is written out faithfully but inserts nothing. -/
def escape_field_chars : List Char → List Char
  | [] => []
  | c :: cs =>
      (if c.isWhitespace || c = field_quote then field_escape.data ++ [c] else [c])
        ++ escape_field_chars cs

/-- Modelled from the spec: quote the field name with the configured quote
character if the field does *not* match the identifier pattern
(`field_quote_pattern_negation = True`), after the escape pass. -/
def escape_and_quote_field (f : String) : String :=
  let escaped : String := ⟨escape_field_chars f.data⟩
  if matches_field_quote_pattern f then escaped
  else field_quote.toString ++ escaped ++ field_quote.toString

/-! ### String value rendering -/

/-- Modelled from the spec: conversion of one part of a string literal —
plain occurrences of the string quote, of the escape character and of the
wildcard characters are escaped with `escape_char = "\"`, wildcard markers
are emitted as the backend's wildcard character `*`. -/
def convertPart : SPart → List Char
  | .plain c => if c = '*' || c = '\\' || c = '"' then ['\\', c] else [c]
  | .wildMulti => ['*']
  | .wildSingle => ['*']

/-- Conversion of all parts of a string literal. -/
def convertParts : List SPart → List Char
  | [] => []
  | p :: ps => convertPart p ++ convertParts ps

/-- Modelled from the spec: string value rendering — convert the literal's
text (escaping quote, escape character and literal wildcards) and wrap it in
the string quote character (the framework's `convert_value_str`).  The spec
defines this renderer for string literals only. -/
def convert_value_str (s : SigmaString) : String :=
  str_quote.toString ++ (⟨convertParts s.parts⟩ : String) ++ str_quote.toString

/-- Modelled from the spec: the source calls the framework's string value
renderer on every exact value, strings and numbers alike; the spec gives
that renderer an output for string literals only (its numeric rendering is a
separate, unquoted path), so on a non-string value the call is an error
path.  The embedding makes that error explicit: `none` is the failed call. -/
def convert_value_str_value : SigmaValue → Option String
  | .str s => some (convert_value_str s)
  | .num _ => none

/-- Rendering of a sequence of exact values through the string value
renderer, failing as soon as one value has no string rendering (the
comprehension of source lines 160-165 raises at the offending element). -/
def renderExactVals : List SigmaValue → Option (List String)
  | [] => some []
  | v :: vs =>
      match convert_value_str_value v, renderExactVals vs with
      | some s, some ss => some (s :: ss)
      | _, _ => none

/-! ### The wildcard-aware string equality path -/

/-- Whether the literal ends with the multi-character wildcard marker. -/
def SigmaString.endsWithWildMulti (s : SigmaString) : Bool :=
  s.parts.getLast? = some SPart.wildMulti

/-- Whether the literal starts with the multi-character wildcard marker. -/
def SigmaString.startsWithWildMulti (s : SigmaString) : Bool :=
  s.parts.head? = some SPart.wildMulti

/-- The literal with its last part removed (`value[:-1]`). -/
def SigmaString.dropLastPart (s : SigmaString) : SigmaString :=
  ⟨s.parts.dropLast⟩

/-- The literal with its first part removed (`value[1:]`). -/
def SigmaString.dropHeadPart (s : SigmaString) : SigmaString :=
  ⟨s.parts.tail⟩

/-- Modelled from the spec: the ordinary wildcard-aware string equality path
(`convert_condition_field_eq_val_str` of the framework) with the templates
the source configures.  The template is chosen by wildcard position: a
trailing-only wildcard renders through the `startswith` template, a
leading-only wildcard through `endswith`, a wildcard at both ends (and
nowhere inside) through `contains`, any other wildcard through the generic
wildcard-match template (the bare token `match` in this backend), and a
wildcard-free value through the plain equality token. -/
def convert_condition_field_eq_val_str (fieldName : String) (s : SigmaString) : String :=
  let f := escape_and_quote_field fieldName
  if s.endsWithWildMulti && !s.dropLastPart.contains_special then
    f ++ " startswith " ++ convert_value_str s.dropLastPart
  else if s.startsWithWildMulti && !s.dropHeadPart.contains_special then
    f ++ " endswith " ++ convert_value_str s.dropHeadPart
  else if s.startsWithWildMulti && s.endsWithWildMulti
      && !s.dropHeadPart.dropLastPart.contains_special then
    f ++ " contains " ++ convert_value_str s.dropHeadPart.dropLastPart
  else if s.contains_special then
    wildcard_match_expression
  else
    f ++ eq_token ++ convert_value_str s

/-! ### The overridden methods of the source file -/

/-- Python's `sep.join(pieces)`: the pieces interleaved with the separator. -/
def joinSep (sep : String) : List String → String
  | [] => ""
  | [x] => x
  | x :: y :: ys => x ++ sep ++ joinSep sep (y :: ys)

/-- `convert_condition_field_eq_val_num` (source lines 140-146): the
escaped/quoted field, the backend's numeric equality token, and the
stringified value.  The source performs no check on the value's kind: it
stringifies whatever value it receives (its `try` only guards a `TypeError`
marked as unreachable). -/
def convert_condition_field_eq_val_num (fieldName : String) (v : SigmaValue) : String :=
  escape_and_quote_field fieldName ++ num_eq_token ++ v.plainStr

/-- The combinator kind of an AND/OR node handed to the as-in optimizer. -/
inductive CondKind where
  | or
  | and
deriving DecidableEq, Repr

/-- `op1 = self.or_in_operator if isinstance(cond, ConditionOR) else
self.and_in_operator` (source line 158). -/
def in_op : CondKind → String
  | .or => or_in_operator
  | .and => and_in_operator

/-- `op2 = self.or_token if isinstance(cond, ConditionOR) else self.and_token`
(source line 159). -/
def bool_token : CondKind → String
  | .or => or_token
  | .and => and_token

/-- The filter of the source's `list_nonwildcard` comprehension:
`(isinstance(arg.value, SigmaString) and not arg.value.contains_special())
or not isinstance(arg.value, SigmaString)`. -/
def value_is_exact : SigmaValue → Bool
  | .str s => !s.contains_special
  | .num _ => true

/-- The filter of the source's `list_wildcards` comprehension: the value
itself when it is a string containing a wildcard marker, nothing otherwise. -/
def value_wildcard : SigmaValue → Option SigmaString
  | .str s => if s.contains_special then some s else none
  | .num _ => none

/-- The per-wildcard fallback fragments of the source's as-in optimizer
(lines 177-183): for each wildcarded value a new field-equals-value condition
is built with the *already rendered* field text `fieldText` and converted
through the ordinary wildcard-aware string path. -/
def as_in_wildcard_fragments (fieldText : String) (args : List (String × SigmaValue)) :
    List String :=
  (args.filterMap (fun a => value_wildcard a.2)).map
    (fun s => convert_condition_field_eq_val_str fieldText s)

/-- `convert_condition_as_in_expression` (source lines 148-186), over the
children of the AND/OR node given as `(field, value)` pairs.  `cond.args[0]`
is the list's head; the source raises an `IndexError` on an empty child list,
which the trigger precondition rules out (the default is never exercised by
any theorem below with an empty list).  The result is `none` when the
`list_nonwildcard` comprehension fails on a value the string renderer cannot
render (a non-string); otherwise `some` of the produced query text. -/
def convert_condition_as_in_expression (kind : CondKind)
    (args : List (String × SigmaValue)) : Option String :=
  let field := escape_and_quote_field (((args.head?).map Prod.fst).getD "")
  let op1 := in_op kind
  let op2 := bool_token kind
  match renderExactVals ((args.filter (fun a => value_is_exact a.2)).map Prod.snd) with
  | none => none
  | some rendered =>
    let list_nonwildcard := joinSep list_separator rendered
    let as_in_expr :=
      if list_nonwildcard ≠ "" then
        field ++ " " ++ op1 ++ " (" ++ list_nonwildcard ++ ")"
      else ""
    let wildcard_exprs :=
      joinSep (token_separator ++ op2 ++ token_separator) (as_in_wildcard_fragments field args)
    some (if as_in_expr ≠ "" ∧ wildcard_exprs ≠ "" then
      as_in_expr ++ token_separator ++ op2 ++ token_separator ++ wildcard_exprs
    else as_in_expr ++ wildcard_exprs)

/-- The partition-and-join rendering that the specification describes for the
list-membership optimizer (spec 4.2): partition the child values in order
into exact and wildcarded, render the exact values (if any) as one
list-membership expression, render one fragment per wildcarded value, and
join the pieces with the node's own boolean token, omitting an absent side;
a failing value rendering fails the whole conversion.  Stated from the
spec's words, to be compared with the source function. -/
def as_in_spec_render (kind : CondKind) (args : List (String × SigmaValue)) :
    Option String :=
  let field := escape_and_quote_field (((args.head?).map Prod.fst).getD "")
  let op1 := in_op kind
  let op2 := bool_token kind
  let exact := (args.filter (fun a => value_is_exact a.2)).map Prod.snd
  match renderExactVals exact with
  | none => none
  | some rendered =>
    let listPart : List String :=
      if exact.isEmpty then []
      else [field ++ " " ++ op1 ++ " (" ++ joinSep list_separator rendered ++ ")"]
    some (joinSep (token_separator ++ op2 ++ token_separator)
      (listPart ++ as_in_wildcard_fragments field args))

/-- Modelled from the spec: the framework's rendering of a `NOT` node over an
already rendered child — the child's text is wrapped with the configured
`not_token`, the token separator standing between all boolean operators
(source line 34). -/
def convert_condition_not (childText : String) : String :=
  not_token ++ token_separator ++ childText

/-! ### Finalization -/

/-- A processing state's routing map, as an association list; a key can be
present with a string, present with Python's `None`, or absent. -/
abbrev StateDict := List (String × Option String)

/-- Python's `state.processing_state.get(key, None)`: the stored value when
the key is present, `None` otherwise (a key stored with `None` and an absent
key are indistinguishable to the caller). -/
def dictGet (d : StateDict) (k : String) : Option String :=
  match List.lookup k d with
  | some v => v
  | none => none

/-- Python truthiness of the retrieved routing value: `None` and the empty
string are falsy, every other string is truthy. -/
def pyTruthy : Option String → Bool
  | none => false
  | some s => s ≠ ""

/-- `finalize_query_default` (source lines 188-197): read `query_table` from
the processing state; if it is truthy, prefix the query with the table name
and `"\n| where "`, otherwise prefix with `"search "`. -/
def finalize_query_default (d : StateDict) (query : String) : String :=
  let query_table := dictGet d "query_table"
  (if pyTruthy query_table then query_table.getD "" ++ "\n| where " else "search ")
    ++ query

/-! ### Helper lemmas -/

theorem ne_empty_of_length_pos {s : String} (h : 0 < s.length) : s ≠ "" := by
  intro he
  subst he
  exact (by decide : ¬ 0 < ("" : String).length) h

theorem length_pos_of_ne_empty {s : String} (h : s ≠ "") : 0 < s.length := by
  rcases s with ⟨l⟩
  cases l with
  | nil => exact absurd rfl h
  | cons c cs => simp [String.length]

theorem append_ne_empty_left {a : String} (b : String) (ha : a ≠ "") : a ++ b ≠ "" :=
  ne_empty_of_length_pos
    (by rw [String.length_append]; have := length_pos_of_ne_empty ha; omega)

theorem append_ne_empty_right (a : String) {b : String} (hb : b ≠ "") : a ++ b ≠ "" :=
  ne_empty_of_length_pos
    (by rw [String.length_append]; have := length_pos_of_ne_empty hb; omega)

theorem joinSep_cons (sep x : String) {ys : List String} (h : ys ≠ []) :
    joinSep sep (x :: ys) = x ++ sep ++ joinSep sep ys := by
  cases ys with
  | nil => exact absurd rfl h
  | cons y t => rfl

theorem joinSep_ne_empty (sep : String) {x : String} (xs : List String) (hx : x ≠ "") :
    joinSep sep (x :: xs) ≠ "" := by
  cases xs with
  | nil => exact hx
  | cons y t => exact append_ne_empty_left _ (append_ne_empty_left _ hx)

theorem convert_value_str_ne_empty (s : SigmaString) : convert_value_str s ≠ "" :=
  append_ne_empty_right _ (by decide)

theorem convert_value_str_value_ne_empty {v : SigmaValue} {s : String}
    (h : convert_value_str_value v = some s) : s ≠ "" := by
  cases v with
  | str t =>
    have ht : convert_value_str t = s := by
      simpa [convert_value_str_value] using h
    exact ht ▸ convert_value_str_ne_empty t
  | num n => simp [convert_value_str_value] at h

theorem renderExactVals_cons {v : SigmaValue} {vs : List SigmaValue} {r : List String}
    (h : renderExactVals (v :: vs) = some r) :
    ∃ s rs, convert_value_str_value v = some s ∧ renderExactVals vs = some rs
      ∧ r = s :: rs := by
  cases hv : convert_value_str_value v with
  | none => simp [renderExactVals, hv] at h
  | some s =>
    cases hr : renderExactVals vs with
    | none => simp [renderExactVals, hv, hr] at h
    | some ss =>
      refine ⟨s, ss, rfl, rfl, ?_⟩
      simp [renderExactVals, hv, hr] at h
      exact h.symm

theorem renderExactVals_eq_none {l : List SigmaValue} {v : SigmaValue}
    (hv : v ∈ l) (h : convert_value_str_value v = none) :
    renderExactVals l = none := by
  induction l with
  | nil => cases hv
  | cons a t ih =>
    rcases List.mem_cons.mp hv with rfl | hv'
    · simp [renderExactVals, h]
    · cases ha : convert_value_str_value a <;> simp [renderExactVals, ha, ih hv']

theorem convert_condition_field_eq_val_str_ne_empty (f : String) (s : SigmaString) :
    convert_condition_field_eq_val_str f s ≠ "" := by
  unfold convert_condition_field_eq_val_str
  dsimp only
  repeat' split
  all_goals
    first
      | decide
      | exact append_ne_empty_right _ (convert_value_str_ne_empty _)

/-! ### The claims -/

/-- C1: for an AND/OR node of equality comparisons, the list-membership
optimizer partitions the child values into exact and wildcarded, preserving
the original child order within each partition; it renders the exact values
(if any) as one list-membership expression, joins it with the per-wildcard
fragments using the node's own boolean token, and omits either side entirely
when it produced nothing — stated as equality between the source function and
the partition-and-join rendering written from the spec's words. -/
theorem as_in_partition_join (kind : CondKind) (args : List (String × SigmaValue)) :
    convert_condition_as_in_expression kind args = as_in_spec_render kind args := by
  unfold convert_condition_as_in_expression as_in_spec_render
  dsimp only
  rcases hE : args.filter (fun a => value_is_exact a.2) with _ | ⟨e, es⟩
  · rw [hE]
    simp [renderExactVals, joinSep]
  · rw [hE]
    rcases hR : renderExactVals (List.map Prod.snd (e :: es)) with _ | r
    · rfl
    · have hR' : renderExactVals (e.2 :: List.map Prod.snd es) = some r := by
        rw [List.map_cons] at hR
        exact hR
      obtain ⟨s, rs, hs, hrs, hr⟩ := renderExactVals_cons hR'
      subst hr
      have hln : joinSep list_separator (s :: rs) ≠ "" :=
        joinSep_ne_empty _ _ (convert_value_str_value_ne_empty hs)
      dsimp only
      rw [if_pos hln]
      rcases hL : args.filterMap (fun a => value_wildcard a.2) with _ | ⟨w, ws⟩
      · unfold as_in_wildcard_fragments
        rw [hL]
        rw [if_neg (fun hc => hc.2 (by simp [joinSep]))]
        simp [joinSep, String.append_empty]
      · unfold as_in_wildcard_fragments
        rw [hL]
        have hJ : joinSep (token_separator ++ bool_token kind ++ token_separator)
            (List.map (fun t => convert_condition_field_eq_val_str
              (escape_and_quote_field ((args.head?.map Prod.fst).getD "")) t) (w :: ws)) ≠ "" := by
          rw [List.map_cons]
          exact joinSep_ne_empty _ _ (convert_condition_field_eq_val_str_ne_empty _ _)
        have hX : escape_and_quote_field ((args.head?.map Prod.fst).getD "") ++ " "
            ++ in_op kind ++ " ("
            ++ joinSep list_separator (s :: rs)
            ++ ")" ≠ "" :=
          append_ne_empty_right _ (by decide)
        rw [if_pos ⟨hX, hJ⟩]
        simp [joinSep, String.append_assoc]

/-- C2: every numeric-equality comparison with a numeric value renders as the
quoted/escaped field, the distinct numeric-equality token " == " (never the
string-equality token " =~ "), and the decimal literal; in particular
`EventID` with `Number 4688` renders as "EventID == 4688". -/
theorem num_eq_renders_with_numeric_token :
    (∀ (f : String) (n : Int),
        convert_condition_field_eq_val_num f (.num n) =
          escape_and_quote_field f ++ num_eq_token ++ toString n)
    ∧ num_eq_token = " == "
    ∧ num_eq_token ≠ eq_token
    ∧ convert_condition_field_eq_val_num "EventID" (.num 4688) = "EventID == 4688" := by
  refine ⟨fun f n => rfl, rfl, by decide, by decide⟩

/-- C3 counterexample: the numeric-equality renderer, given the non-numeric
value `StringLiteral "5"`, does not fail with a `TypeMismatch`: it returns
the query text "EventID == 5". -/
theorem num_eq_nonnumeric_returns_text :
    convert_condition_field_eq_val_num "EventID" (.str (SigmaString.parse "5"))
      = "EventID == 5" := by decide

/-- C3 amended: the numeric-equality renderer performs no validation of the
value's kind — for every value, numeric or not, it returns the rendered
field, the numeric-equality token and the plain stringification of the
value, and never raises an error. -/
theorem num_eq_no_type_check :
    ∀ (f : String) (v : SigmaValue),
      convert_condition_field_eq_val_num f v =
        escape_and_quote_field f ++ num_eq_token ++ v.plainStr :=
  fun _ _ => rfl

/-- C4 counterexample: a routing key that is present in the compilation state
with the empty-string value does not produce the table-prefix form — the
output uses the default "search " prefix instead. -/
theorem finalize_present_empty_counterexample :
    dictGet [("query_table", some "")] "query_table" = some ""
    ∧ finalize_query_default [("query_table", some "")] "Image =~ \"powershell.exe\""
        = "search Image =~ \"powershell.exe\""
    ∧ finalize_query_default [("query_table", some "")] "Image =~ \"powershell.exe\""
        ≠ "" ++ "\n| where " ++ "Image =~ \"powershell.exe\"" := by
  refine ⟨rfl, by decide, by decide⟩

/-- C4 amended: finalization prefixes the compiled expression with the
routing value followed by "\n| where " when the `query_table` routing value
is present and non-empty, and with "search " when it is absent; with routing
value "DeviceProcessEvents" the example query renders as
"DeviceProcessEvents\n| where Image =~ \"powershell.exe\"". -/
theorem finalize_prefix_amended :
    (∀ (d : StateDict) (q t : String), dictGet d "query_table" = some t → t ≠ "" →
        finalize_query_default d q = t ++ "\n| where " ++ q)
    ∧ (∀ (d : StateDict) (q : String), dictGet d "query_table" = none →
        finalize_query_default d q = "search " ++ q)
    ∧ finalize_query_default [("query_table", some "DeviceProcessEvents")]
        "Image =~ \"powershell.exe\""
        = "DeviceProcessEvents\n| where Image =~ \"powershell.exe\"" := by
  refine ⟨?_, ?_, by decide⟩
  · intro d q t h ht
    unfold finalize_query_default
    rw [h]
    simp [pyTruthy, ht, String.append_assoc]
  · intro d q h
    unfold finalize_query_default
    rw [h]
    simp [pyTruthy]

/-- Witness for the amended C4 theorem at a concrete state and query. -/
theorem finalize_prefix_amended_witness :
    dictGet [("query_table", some "DeviceProcessEvents")] "query_table"
        = some "DeviceProcessEvents"
    ∧ ("DeviceProcessEvents" : String) ≠ ""
    ∧ finalize_query_default [("query_table", some "DeviceProcessEvents")] "Q"
        = "DeviceProcessEvents" ++ "\n| where " ++ "Q" :=
  ⟨rfl, by decide,
    finalize_prefix_amended.1 [("query_table", some "DeviceProcessEvents")] "Q"
      "DeviceProcessEvents" rfl (by decide)⟩

/-- C5 counterexample: for Or of equality on "Image" with values "cmd.exe"
and "power*.exe", the compiled text is not the claimed
`Image has_any ("cmd.exe") or Image contains "power"`. -/
theorem or_wildcard_example_counterexample :
    convert_condition_as_in_expression .or
        [("Image", .str (SigmaString.parse "cmd.exe")),
         ("Image", .str (SigmaString.parse "power*.exe"))]
      ≠ some "Image has_any (\"cmd.exe\") or Image contains \"power\"" := by decide

/-- C5 amended: the wildcarded value "power*.exe" has its wildcard in the
middle of the string, so the wildcard-aware path falls through
startswith/endswith/contains to the generic wildcard-match template, whose
configured text is the bare token "match"; the node renders as
`Image has_any ("cmd.exe") or match`. -/
theorem or_wildcard_example_renders_match :
    convert_condition_as_in_expression .or
        [("Image", .str (SigmaString.parse "cmd.exe")),
         ("Image", .str (SigmaString.parse "power*.exe"))]
      = some "Image has_any (\"cmd.exe\") or match" := by decide

/-- C6 counterexample: the fallback fragments are rendered with the already
quoted field text, so for the field "Process Image" (which needs quoting)
the fragment's field is quoted twice (''Process Image'') while the
list-membership expression shows it quoted once ('Process Image') — the
field does not appear identically, refuting "quoted and escaped exactly
once, identically for every field name". -/
theorem fragment_field_double_quoted :
    convert_condition_as_in_expression .or
        [("Process Image", .str (SigmaString.parse "cmd.exe")),
         ("Process Image", .str (SigmaString.parse "power*"))]
      = some "'Process Image' has_any (\"cmd.exe\") or ''Process Image'' startswith \"power\""
    ∧ escape_and_quote_field (escape_and_quote_field "Process Image")
        ≠ escape_and_quote_field "Process Image"
    ∧ convert_condition_as_in_expression .or
        [("Process Image", .str (SigmaString.parse "cmd.exe")),
         ("Process Image", .str (SigmaString.parse "power*"))]
      ≠ some "'Process Image' has_any (\"cmd.exe\") or 'Process Image' startswith \"power\"" := by
  refine ⟨by decide, by decide, by decide⟩

/-- C6 amended: each wildcarded value is re-rendered through the ordinary
wildcard-aware string path, but applied to the already rendered field text;
whenever field rendering is idempotent on the field (in particular for every
field matching the identifier pattern, which renders unchanged) the
fragments use the field exactly as the list-membership expression does, as
in the concrete example on "Image". -/
theorem fragment_field_idempotent_amended :
    (∀ (fieldName : String) (args : List (String × SigmaValue)),
        escape_and_quote_field fieldName = fieldName →
        as_in_wildcard_fragments (escape_and_quote_field fieldName) args =
          (args.filterMap (fun a => value_wildcard a.2)).map
            (fun s => convert_condition_field_eq_val_str fieldName s))
    ∧ convert_condition_as_in_expression .or
        [("Image", .str (SigmaString.parse "cmd.exe")),
         ("Image", .str (SigmaString.parse "power*"))]
      = some "Image has_any (\"cmd.exe\") or Image startswith \"power\"" := by
  refine ⟨?_, by decide⟩
  intro fieldName args h
  unfold as_in_wildcard_fragments
  rw [h]

/-- Witness for the amended C6 theorem at the field "Image". -/
theorem fragment_field_idempotent_amended_witness :
    escape_and_quote_field "Image" = "Image"
    ∧ as_in_wildcard_fragments (escape_and_quote_field "Image")
        [("Image", SigmaValue.str (SigmaString.parse "power*"))]
      = ([("Image", SigmaValue.str (SigmaString.parse "power*"))].filterMap
            (fun a => value_wildcard a.2)).map
          (fun s => convert_condition_field_eq_val_str "Image" s) :=
  ⟨by decide, fragment_field_idempotent_amended.1 "Image"
      [("Image", SigmaValue.str (SigmaString.parse "power*"))] (by decide)⟩

/-- C7: the framework applies the configured not-token by *wrapping* the
rendered child, so `Not(Compare(Equals, "User", "admin"))` renders as the
prefix form " !~  User =~ \"admin\"" and not as the claimed infix form
`User !~ "admin"` — evaluating the code at the claim's input. -/
theorem not_renders_prefix_token :
    convert_condition_not
        (convert_condition_field_eq_val_str "User" (SigmaString.parse "admin"))
      = " !~  User =~ \"admin\""
    ∧ convert_condition_not
        (convert_condition_field_eq_val_str "User" (SigmaString.parse "admin"))
      ≠ "User !~ \"admin\"" := by
  refine ⟨by decide, by decide⟩

/-- Replacing every child's field leaves the exact partition's values
unchanged: the partition is filtered from values only. -/
theorem filter_exact_ignores_fields (f : String) (rest : List (String × SigmaValue)) :
    List.map Prod.snd
      (List.filter (fun a => value_is_exact a.2) (List.map (fun p => (f, p.2)) rest))
    = List.map Prod.snd (List.filter (fun a => value_is_exact a.2) rest) := by
  induction rest with
  | nil => rfl
  | cons a t ih => cases h : value_is_exact a.2 <;> simp [List.filter_cons, h, ih]

/-- The same, with an untouched first child in front. -/
theorem filter_exact_ignores_fields_cons (x : String × SigmaValue) (f : String)
    (rest : List (String × SigmaValue)) :
    List.map Prod.snd
      (List.filter (fun a => value_is_exact a.2) (x :: List.map (fun p => (f, p.2)) rest))
    = List.map Prod.snd (List.filter (fun a => value_is_exact a.2) (x :: rest)) := by
  cases h : value_is_exact x.2 <;>
    simp [List.filter_cons, h, filter_exact_ignores_fields f rest]

/-- Replacing every child's field leaves the wildcard partition unchanged:
it is filtered from values only. -/
theorem wildcard_ignores_fields (f : String) (rest : List (String × SigmaValue)) :
    List.filterMap (fun a => value_wildcard a.2) (List.map (fun p => (f, p.2)) rest)
    = List.filterMap (fun a => value_wildcard a.2) rest := by
  induction rest with
  | nil => rfl
  | cons a t ih => cases h : value_wildcard a.2 <;> simp [List.filterMap_cons, h, ih]

/-- The same, with an untouched first child in front. -/
theorem wildcard_ignores_fields_cons (x : String × SigmaValue) (f : String)
    (rest : List (String × SigmaValue)) :
    List.filterMap (fun a => value_wildcard a.2) (x :: List.map (fun p => (f, p.2)) rest)
    = List.filterMap (fun a => value_wildcard a.2) (x :: rest) := by
  cases h : value_wildcard x.2 <;>
    simp [List.filterMap_cons, h, wildcard_ignores_fields f rest]

/-- C8: the list-membership optimizer computes the field from the first
child only and never validates the remaining children's fields — replacing
every later child's field by anything (here: by the first child's field)
does not change the output, and a node with differing fields still returns a
query built from the first child's field, with no error. -/
theorem as_in_uses_first_field_only :
    (∀ (kind : CondKind) (f : String) (v : SigmaValue)
        (rest : List (String × SigmaValue)),
        convert_condition_as_in_expression kind ((f, v) :: rest) =
          convert_condition_as_in_expression kind
            ((f, v) :: rest.map (fun p => (f, p.2))))
    ∧ convert_condition_as_in_expression .or
        [("FieldA", .str (SigmaString.parse "cmd.exe")),
         ("FieldB", .str (SigmaString.parse "foo.exe"))]
      = some "FieldA has_any (\"cmd.exe\", \"foo.exe\")" := by
  refine ⟨?_, by decide⟩
  intro kind f v rest
  unfold convert_condition_as_in_expression as_in_wildcard_fragments
  rw [filter_exact_ignores_fields_cons (f, v) f rest,
    wildcard_ignores_fields_cons (f, v) f rest]
  simp only [List.head?_cons]

/-- C9 counterexample: an in-list of numbers produces no output at all — the
string value renderer has no rendering for a number, so the conversion
fails; in particular the numbers do not appear string-quoted in any output. -/
theorem nonstring_quoted_counterexample :
    convert_condition_as_in_expression .or
        [("EventID", .num 4688), ("EventID", .num 5)] = none
    ∧ convert_value_str_value (SigmaValue.num 4688) = none := by
  refine ⟨by decide, rfl⟩

/-- C9 amended: every non-string child value is classified into the exact
partition (never the wildcard partition) and passed to the string value
renderer, never the numeric rendering path; since that renderer is defined
for string literals only, a non-string member in the exact partition makes
the conversion of the node fail instead of appearing quoted in a query. -/
theorem nonstring_values_fail_rendering :
    (∀ n : Int, value_is_exact (.num n) = true)
    ∧ (∀ n : Int, value_wildcard (.num n) = none)
    ∧ (∀ n : Int, convert_value_str_value (.num n) = none)
    ∧ (∀ (kind : CondKind) (args : List (String × SigmaValue)) (n : Int),
        SigmaValue.num n ∈
            (args.filter (fun a => value_is_exact a.2)).map Prod.snd →
        convert_condition_as_in_expression kind args = none) := by
  refine ⟨fun _ => rfl, fun _ => rfl, fun _ => rfl, ?_⟩
  intro kind args n hmem
  unfold convert_condition_as_in_expression
  dsimp only
  rw [renderExactVals_eq_none hmem rfl]

/-- Witness for the amended C9 theorem at a concrete all-numeric in-list. -/
theorem nonstring_values_fail_rendering_witness :
    SigmaValue.num 4688 ∈
        (([("EventID", SigmaValue.num 4688), ("EventID", SigmaValue.num 5)].filter
            (fun a => value_is_exact a.2)).map Prod.snd)
    ∧ convert_condition_as_in_expression .or
        [("EventID", SigmaValue.num 4688), ("EventID", SigmaValue.num 5)] = none :=
  ⟨by decide, nonstring_values_fail_rendering.2.2.2 .or
      [("EventID", SigmaValue.num 4688), ("EventID", SigmaValue.num 5)] 4688 (by decide)⟩

/-- C10: finalization treats a missing `query_table` key, a key stored with
`None`, and a key stored with the empty string all the same — the output is
"search " followed by the query — and only a non-empty routing value yields
the table-prefix form. -/
theorem finalize_truthiness :
    (∀ (d : StateDict) (q : String), List.lookup "query_table" d = none →
        finalize_query_default d q = "search " ++ q)
    ∧ (∀ (d : StateDict) (q : String), List.lookup "query_table" d = some none →
        finalize_query_default d q = "search " ++ q)
    ∧ (∀ (d : StateDict) (q : String), List.lookup "query_table" d = some (some "") →
        finalize_query_default d q = "search " ++ q)
    ∧ (∀ (d : StateDict) (q t : String), t ≠ "" →
        List.lookup "query_table" d = some (some t) →
        finalize_query_default d q = t ++ "\n| where " ++ q) := by
  refine ⟨?_, ?_, ?_, ?_⟩
  · intro d q h
    simp [finalize_query_default, dictGet, h, pyTruthy]
  · intro d q h
    simp [finalize_query_default, dictGet, h, pyTruthy]
  · intro d q h
    simp [finalize_query_default, dictGet, h, pyTruthy]
  · intro d q t ht h
    simp [finalize_query_default, dictGet, h, pyTruthy, ht, String.append_assoc]

/-- Witness for the C10 theorem at concrete states and a concrete query. -/
theorem finalize_truthiness_witness :
    List.lookup "query_table" ([("query_table", some "")] : StateDict) = some (some "")
    ∧ finalize_query_default [("query_table", some "")] "Q" = "search " ++ "Q"
    ∧ List.lookup "query_table" ([] : StateDict) = none
    ∧ finalize_query_default [] "Q" = "search " ++ "Q" :=
  ⟨rfl, finalize_truthiness.2.2.1 [("query_table", some "")] "Q" rfl,
    rfl, finalize_truthiness.1 [] "Q" rfl⟩

end M365Defender
